import Mathlib

/-!
Verification development for the `georgejenkins/jwt` library.

The Go sources are shallowly embedded: byte strings (`[]byte` and Go
`string` values) are modelled as `List Nat` with each element a byte
value below 256, times (`time.Time` / `time.Duration`) as `Int` seconds,
and fallible functions return `Option` / explicit result types.  A Go
runtime panic (nil dereference, index out of range) is modelled by an
explicit `panic` constructor of the result type.
-/

namespace JWT

/-- Convert a Lean string literal to its byte list (ASCII inputs only).
Used to write concrete Go byte strings. -/
def s2b (s : String) : List Nat := s.data.map Char.toNat

/-! ## Base64url codec (token.go `Base64URLEncode` / `Base64URLDecode`)

`Base64URLEncode` wraps Go's `base64.StdEncoding.EncodeToString`, takes the
prefix before the first `'='` and replaces `'+'`/`'/'` by `'-'`/`'_'`.
`Base64URLDecode` replaces back, re-pads according to `len % 4` (rejecting
remainder 1) and calls `base64.StdEncoding.DecodeString`.  The standard
base64 codec itself (an external collaborator from `encoding/base64`) is
modelled by `stdEncode` / `stdDecode` below.  Byte 61 is `'='`, 43 is
`'+'`, 47 is `'/'`, 45 is `'-'`, 95 is `'_'`. -/

/-- Pack bytes into big-endian 6-bit groups, standard base64 chunking. -/
def toSextets : List Nat → List Nat
  | [] => []
  | [b0] => [b0 / 4, b0 % 4 * 16]
  | [b0, b1] => [b0 / 4, b0 % 4 * 16 + b1 / 16, b1 % 16 * 4]
  | b0 :: b1 :: b2 :: rest =>
      b0 / 4 :: (b0 % 4 * 16 + b1 / 16) :: (b1 % 16 * 4 + b2 / 64) :: b2 % 64 :: toSextets rest

/-- Standard base64 alphabet, as ASCII codes. -/
def sextetToChar (n : Nat) : Nat :=
  if n < 26 then 65 + n
  else if n < 52 then 97 + (n - 26)
  else if n < 62 then 48 + (n - 52)
  else if n = 62 then 43
  else 47

/-- Inverse alphabet lookup; `none` for a byte outside the alphabet. -/
def charToSextet (c : Nat) : Option Nat :=
  if 65 ≤ c ∧ c ≤ 90 then some (c - 65)
  else if 97 ≤ c ∧ c ≤ 122 then some (26 + (c - 97))
  else if 48 ≤ c ∧ c ≤ 57 then some (52 + (c - 48))
  else if c = 43 then some 62
  else if c = 47 then some 63
  else none

/-- Unpack 6-bit groups back into bytes; the 2- and 3-group tails are the
padded final quanta (`==` and `=` cases), a single leftover group is
rejected as Go's decoder does. -/
def fromSextets : List Nat → Option (List Nat)
  | [] => some []
  | [_] => none
  | [c0, c1] => some [c0 * 4 + c1 / 16]
  | [c0, c1, c2] => some [c0 * 4 + c1 / 16, c1 % 16 * 16 + c2 / 4]
  | c0 :: c1 :: c2 :: c3 :: rest =>
      (fromSextets rest).map
        (fun l => (c0 * 4 + c1 / 16) :: (c1 % 16 * 16 + c2 / 4) :: (c2 % 4 * 64 + c3) :: l)

/-- Alphabet lookup over a whole list, failing on any non-alphabet byte. -/
def mapCharToSextet : List Nat → Option (List Nat)
  | [] => some []
  | c :: rest =>
      match charToSextet c, mapCharToSextet rest with
      | some s, some ss => some (s :: ss)
      | _, _ => none

/-- Model of `base64.StdEncoding.EncodeToString`: alphabet chars plus
trailing `'='` padding to a multiple of four. -/
def stdEncode (b : List Nat) : List Nat :=
  (toSextets b).map sextetToChar ++ List.replicate ((3 - b.length % 3) % 3) 61

/-- Model of `base64.StdEncoding.DecodeString` (non-strict mode): length
must be a multiple of four, at most two `'='` allowed and only as a
suffix, then alphabet lookup and 6-bit unpacking. -/
def stdDecode (cs : List Nat) : Option (List Nat) :=
  if cs.length % 4 ≠ 0 then none
  else
    let stripped := cs.takeWhile (fun c => c != 61)
    let padCount := cs.length - stripped.length
    if 2 < padCount then none
    else if cs ≠ stripped ++ List.replicate padCount 61 then none
    else
      match mapCharToSextet stripped with
      | none => none
      | some sextets => fromSextets sextets

/-- The `'+'` to `'-'` and `'/'` to `'_'` replacement of `Base64URLEncode`. -/
def urlChar (c : Nat) : Nat := if c = 43 then 45 else if c = 47 then 95 else c

/-- The `'-'` to `'+'` and `'_'` to `'/'` replacement of `Base64URLDecode`. -/
def unUrlChar (c : Nat) : Nat := if c = 45 then 43 else if c = 95 then 47 else c

/-- token.go `Base64URLEncode`: standard encode, strip from the first
`'='`, then apply the url-alphabet replacement. -/
def Base64URLEncode (b : List Nat) : List Nat :=
  ((stdEncode b).takeWhile (fun c => c != 61)).map urlChar

/-- token.go `Base64URLDecode`: undo the url replacement, pad according to
`len % 4` (remainder 1 is rejected as an illegal base64url string), then
standard decode. -/
def Base64URLDecode (s : List Nat) : Option (List Nat) :=
  match (s.map unUrlChar).length % 4 with
  | 0 => stdDecode (s.map unUrlChar)
  | 2 => stdDecode (s.map unUrlChar ++ [61, 61])
  | 3 => stdDecode (s.map unUrlChar ++ [61])
  | _ => none

/-! ### Round-trip lemmas for the codec -/

theorem toSextets_lt : ∀ (b : List Nat), (∀ x ∈ b, x < 256) → ∀ s ∈ toSextets b, s < 64
  | [], _, s, hs => by simp [toSextets] at hs
  | [b0], hb, s, hs => by
      have h0 : b0 < 256 := hb b0 (by simp)
      simp [toSextets] at hs
      rcases hs with h | h <;> omega
  | [b0, b1], hb, s, hs => by
      have h0 : b0 < 256 := hb b0 (by simp)
      have h1 : b1 < 256 := hb b1 (by simp)
      simp [toSextets] at hs
      rcases hs with h | h | h <;> omega
  | b0 :: b1 :: b2 :: rest, hb, s, hs => by
      have h0 : b0 < 256 := hb b0 (by simp)
      have h1 : b1 < 256 := hb b1 (by simp)
      have h2 : b2 < 256 := hb b2 (by simp)
      have hrest : ∀ x ∈ rest, x < 256 := fun x hx => hb x (by simp [hx])
      simp only [toSextets, List.mem_cons] at hs
      rcases hs with h | h | h | h | h
      · omega
      · omega
      · omega
      · omega
      · exact toSextets_lt rest hrest s h

theorem fromSextets_toSextets : ∀ (b : List Nat), (∀ x ∈ b, x < 256) →
    fromSextets (toSextets b) = some b
  | [], _ => by simp [toSextets, fromSextets]
  | [b0], hb => by
      have h0 : b0 < 256 := hb b0 (by simp)
      simp only [toSextets, fromSextets, Option.some.injEq, List.cons.injEq, and_true]
      omega
  | [b0, b1], hb => by
      have h0 : b0 < 256 := hb b0 (by simp)
      have h1 : b1 < 256 := hb b1 (by simp)
      simp only [toSextets, fromSextets, Option.some.injEq, List.cons.injEq, and_true]
      omega
  | b0 :: b1 :: b2 :: rest, hb => by
      have h0 : b0 < 256 := hb b0 (by simp)
      have h1 : b1 < 256 := hb b1 (by simp)
      have h2 : b2 < 256 := hb b2 (by simp)
      have hrest : ∀ x ∈ rest, x < 256 := fun x hx => hb x (by simp [hx])
      have ih := fromSextets_toSextets rest hrest
      simp only [toSextets, fromSextets, ih, Option.map_some]
      have e0 : b0 / 4 * 4 + (b0 % 4 * 16 + b1 / 16) / 16 = b0 := by omega
      have e1 : (b0 % 4 * 16 + b1 / 16) % 16 * 16 + (b1 % 16 * 4 + b2 / 64) / 4 = b1 := by
        omega
      have e2 : (b1 % 16 * 4 + b2 / 64) % 4 * 64 + b2 % 64 = b2 := by omega
      simp [e0, e1, e2]

theorem charToSextet_sextetToChar : ∀ n < 64, charToSextet (sextetToChar n) = some n := by
  decide

theorem sextetToChar_ne_61 : ∀ n < 64, sextetToChar n ≠ 61 := by decide

theorem unUrlChar_urlChar_sextet : ∀ n < 64, unUrlChar (urlChar (sextetToChar n)) = sextetToChar n := by
  decide

theorem urlChar_sextet_ne : ∀ n < 64,
    urlChar (sextetToChar n) ≠ 61 ∧ urlChar (sextetToChar n) ≠ 43 ∧
    urlChar (sextetToChar n) ≠ 47 := by decide

theorem takeWhile_append_of_all {p : Nat → Bool} :
    ∀ (l r : List Nat), (∀ c ∈ l, p c = true) → (l ++ r).takeWhile p = l ++ r.takeWhile p
  | [], r, _ => by simp
  | c :: l, r, h => by
      have hc : p c = true := h c (by simp)
      simp only [List.cons_append, List.takeWhile_cons, hc, if_true]
      rw [takeWhile_append_of_all l r (fun x hx => h x (by simp [hx]))]

theorem takeWhile_replicate_61 (k : Nat) :
    (List.replicate k 61).takeWhile (fun c => c != 61) = [] := by
  cases k <;> simp [List.replicate, List.takeWhile_cons]

theorem map_id_of_mem {f : Nat → Nat} :
    ∀ (l : List Nat), (∀ c ∈ l, f c = c) → l.map f = l
  | [], _ => rfl
  | c :: l, h => by
      simp only [List.map_cons, h c (by simp)]
      rw [map_id_of_mem l (fun x hx => h x (by simp [hx]))]

theorem mapCharToSextet_map_sextetToChar :
    ∀ (sx : List Nat), (∀ s ∈ sx, s < 64) →
      mapCharToSextet (sx.map sextetToChar) = some sx
  | [], _ => rfl
  | s :: sx, h => by
      have hs : s < 64 := h s (by simp)
      simp only [List.map_cons, mapCharToSextet, charToSextet_sextetToChar s hs,
        mapCharToSextet_map_sextetToChar sx (fun x hx => h x (by simp [hx]))]

theorem toSextets_length_mod : ∀ (b : List Nat), (toSextets b).length % 4 ≠ 1
  | [] => by simp [toSextets]
  | [_] => by simp [toSextets]
  | [_, _] => by simp [toSextets]
  | _ :: _ :: _ :: rest => by
      have ih := toSextets_length_mod rest
      simp only [toSextets, List.length_cons]
      omega

/-- Decoding the standard-encoded chunk form returns the 6-bit groups. -/
theorem stdDecode_encoded (sx b : List Nat) (k : Nat) (hk : k ≤ 2)
    (hlen : (sx.length + k) % 4 = 0)
    (hsx : ∀ s ∈ sx, s < 64)
    (hfrom : fromSextets sx = some b) :
    stdDecode (sx.map sextetToChar ++ List.replicate k 61) = some b := by
  have hne : ∀ c ∈ sx.map sextetToChar, (fun c => c != 61) c = true := by
    intro c hc
    rcases List.mem_map.mp hc with ⟨s, hs, rfl⟩
    simpa using sextetToChar_ne_61 s (hsx s hs)
  have htake : (sx.map sextetToChar ++ List.replicate k 61).takeWhile (fun c => c != 61)
      = sx.map sextetToChar := by
    rw [takeWhile_append_of_all _ _ hne, takeWhile_replicate_61, List.append_nil]
  have hlen2 : (sx.map sextetToChar ++ List.replicate k 61).length = sx.length + k := by
    simp
  simp only [stdDecode, hlen2, hlen, ne_eq, not_true_eq_false, if_false, htake,
    List.length_map]
  have hsub : sx.length + k - sx.length = k := by omega
  rw [hsub]
  simp only [if_neg (by omega : ¬ 2 < k)]
  simp [mapCharToSextet_map_sextetToChar sx hsx, hfrom]

/-- C10 core: decode after encode recovers the bytes. -/
theorem base64url_decode_encode (b : List Nat) (hb : ∀ x ∈ b, x < 256) :
    Base64URLDecode (Base64URLEncode b) = some b := by
  have hsx : ∀ s ∈ toSextets b, s < 64 := toSextets_lt b hb
  have hne : ∀ c ∈ (toSextets b).map sextetToChar, (fun c => c != 61) c = true := by
    intro c hc
    rcases List.mem_map.mp hc with ⟨s, hs, rfl⟩
    simpa using sextetToChar_ne_61 s (hsx s hs)
  have henc : Base64URLEncode b = ((toSextets b).map sextetToChar).map urlChar := by
    unfold Base64URLEncode stdEncode
    rw [takeWhile_append_of_all _ _ hne, takeWhile_replicate_61, List.append_nil]
  have hun : (Base64URLEncode b).map unUrlChar = (toSextets b).map sextetToChar := by
    rw [henc, List.map_map]
    apply map_id_of_mem
    intro c hc
    rcases List.mem_map.mp hc with ⟨s, hs, rfl⟩
    exact unUrlChar_urlChar_sextet s (hsx s hs)
  have hfrom := fromSextets_toSextets b hb
  have hmod := toSextets_length_mod b
  unfold Base64URLDecode
  rw [hun]
  simp only [List.length_map]
  rcases h4 : (toSextets b).length % 4 with _ | _ | _ | _ | n
  · have h := stdDecode_encoded (toSextets b) b 0 (by omega) (by omega) hsx hfrom
    simpa using h
  · exact absurd h4 hmod
  · have h := stdDecode_encoded (toSextets b) b 2 (by omega) (by omega) hsx hfrom
    simpa using h
  · have h := stdDecode_encoded (toSextets b) b 1 (by omega) (by omega) hsx hfrom
    simpa using h
  · exfalso
    have := Nat.mod_lt (toSextets b).length (by omega : 0 < 4)
    omega

/-- C10 alphabet part: the encoded form has no padding and no `'+'`/`'/'`. -/
theorem base64url_encode_alphabet (b : List Nat) (hb : ∀ x ∈ b, x < 256) :
    ∀ c ∈ Base64URLEncode b, c ≠ 61 ∧ c ≠ 43 ∧ c ≠ 47 := by
  have hsx : ∀ s ∈ toSextets b, s < 64 := toSextets_lt b hb
  intro c hc
  unfold Base64URLEncode at hc
  rcases List.mem_map.mp hc with ⟨d, hd, rfl⟩
  have hd2 : d ∈ (stdEncode b).takeWhile (fun c => c != 61) := hd
  have hd3 : d ∈ stdEncode b := (List.takeWhile_prefix _).subset hd2
  unfold stdEncode at hd3
  rcases List.mem_append.mp hd3 with h | h
  · rcases List.mem_map.mp h with ⟨s, hs, rfl⟩
    exact urlChar_sextet_ne s (hsx s hs)
  · exfalso
    have hp := List.mem_takeWhile_imp hd2
    have : d = 61 := List.eq_of_mem_replicate h
    simp [this] at hp

end JWT

namespace JWT

/-! ## Algorithm catalog (part_001): `Algorithm` is a Go string type. -/

def HS256 : List Nat := s2b "HS256"

def HS384 : List Nat := s2b "HS384"

def HS512 : List Nat := s2b "HS512"

def RS256 : List Nat := s2b "RS256"

def RS384 : List Nat := s2b "RS384"

def RS512 : List Nat := s2b "RS512"

def ES256 : List Nat := s2b "ES256"

def ES384 : List Nat := s2b "ES384"

def ES512 : List Nat := s2b "ES512"

def PS256 : List Nat := s2b "PS256"

def PS384 : List Nat := s2b "PS384"

def PS512 : List Nat := s2b "PS512"

def EdDSA : List Nat := s2b "EdDSA"

def None : List Nat := s2b "none"

/-! ## Data model (header.go, token.go, part_000)

Go zero values: empty byte strings, `false` booleans.  Times are
Int seconds since the Unix epoch (`time.Unix(sec, 0)` is `sec`), and
durations are Int seconds. -/

/-- header.go `Header`: `alg` plus the optional passthrough fields. -/
structure Header where
  algorithm : List Nat := []
  jwkSetURL : List Nat := []
  jwk : List Nat := []
  keyID : List Nat := []
  typ : List Nat := []
  contentType : List Nat := []
deriving DecidableEq

/-- part_000 `Claims`: the seven registered claims, all string-valued. -/
structure Claims where
  issuer : List Nat := []
  subject : List Nat := []
  audience : List Nat := []
  expiration : List Nat := []
  notBefore : List Nat := []
  issuedAt : List Nat := []
  jwtID : List Nat := []
deriving DecidableEq

/-- token.go `Token`. -/
structure Token where
  alg : List Nat := []
  registeredHeader : Header := {}
  registeredClaims : Claims := {}
  rawToken : List Nat := []
  rawHeader : List Nat := []
  rawBody : List Nat := []
  rawSignature : List Nat := []
  decodedHeader : List Nat := []
  decodedBody : List Nat := []
  decodedSignature : List Nat := []
  signatureValid : Bool := false
  claimsValid : Bool := false
deriving DecidableEq

/-- part_000 `ValidationClaims`.  The Go zero `time.Time` is modelled by
`0`; nothing in the claims below depends on the zero value itself. -/
structure ValidationClaims where
  jwtID : List (List Nat) := []
  issuer : List (List Nat) := []
  subject : List (List Nat) := []
  audience : List (List Nat) := []
  expiration : Int := 0
  expirationLeeway : Int := 0
  notBefore : Int := 0
  notBeforeLeeway : Int := 0
deriving DecidableEq

/-- Outcome of a Go call that can also crash: `panic` models a runtime
panic (nil dereference, index out of range). -/
inductive GoRes (α : Type) where
  | ok : α → GoRes α
  | err : String → GoRes α
  | panic : GoRes α
deriving DecidableEq

/-- Outcome of a Go call returning a tuple that already carries its error
value, but which can also crash. -/
inductive POut (α : Type) where
  | ok : α → POut α
  | panic : POut α
deriving DecidableEq

/-! ## strconv.ParseInt model (base 10, 64-bit) -/

def isDigit (c : Nat) : Bool := 48 ≤ c && c ≤ 57

/-- Accumulate decimal digits left to right; fail on a non-digit. -/
def digitsVal (ds : List Nat) : Option Nat :=
  ds.foldl
    (fun acc c =>
      match acc with
      | some v => if isDigit c then some (v * 10 + (c - 48)) else none
      | none => none)
    (some 0)

/-- `strconv.ParseInt(s, 10, 64)`: optional sign, at least one digit,
value within the signed 64-bit range (overflow is an error). -/
def parseInt64 (s : List Nat) : Option Int :=
  match s with
  | [] => none
  | 43 :: rest =>
      if rest = [] then none
      else (digitsVal rest).bind
        (fun v => if v ≤ 9223372036854775807 then some (Int.ofNat v) else none)
  | 45 :: rest =>
      if rest = [] then none
      else (digitsVal rest).bind
        (fun v => if v ≤ 9223372036854775808 then some (-(Int.ofNat v)) else none)
  | _ =>
      (digitsVal s).bind
        (fun v => if v ≤ 9223372036854775807 then some (Int.ofNat v) else none)

/-! ## Claims validator (part_000) -/

/-- part_000 `anyEquals`. -/
def anyEquals (haystack : List (List Nat)) (needle : List Nat) : Bool :=
  haystack.any (fun value => value == needle)

/-- part_000 `VerifyIssuer`. -/
def VerifyIssuer (claims : Claims) (expIssuer : List (List Nat)) : Bool :=
  if claims.issuer = [] then true else anyEquals expIssuer claims.issuer

/-- part_000 `VerifySubject`. -/
def VerifySubject (claims : Claims) (expSubject : List (List Nat)) : Bool :=
  if claims.subject = [] then true else anyEquals expSubject claims.subject

/-- part_000 `VerifyAudience`. -/
def VerifyAudience (claims : Claims) (expAudience : List (List Nat)) : Bool :=
  if claims.audience = [] then true else anyEquals expAudience claims.audience

/-- part_000 `VerifyNotBefore`: absent passes; else parse and compare
`currentTime + leeway > nbf`. -/
def VerifyNotBefore (claims : Claims) (currentTime leeway : Int) : Bool × Option String :=
  if claims.notBefore = [] then (true, none)
  else
    match parseInt64 claims.notBefore with
    | none => (false, some "nbf parse error")
    | some n => (decide (currentTime + leeway > n), none)

/-- part_000 `VerifyExpiration`: absent passes; else parse and compare
`currentTime - leeway < exp`. -/
def VerifyExpiration (claims : Claims) (currentTime leeway : Int) : Bool × Option String :=
  if claims.expiration = [] then (true, none)
  else
    match parseInt64 claims.expiration with
    | none => (false, some "exp parse error")
    | some n => (decide (currentTime - leeway < n), none)

/-- part_000 `ValidateRegisteredClaims`.  The Go receiver takes a
`*ValidationClaims`; on a nil pointer the very first statement
(`validationClaims.NotBefore`) dereferences nil and panics, before the
`validationClaims == nil` guard further down is ever reached. -/
def ValidateRegisteredClaims (claims : Claims) (validationClaims : Option ValidationClaims) :
    POut (Bool × Option String) :=
  match validationClaims with
  | none => POut.panic
  | some vc =>
      match VerifyNotBefore claims vc.notBefore vc.notBeforeLeeway with
      | (nbfValid, err) =>
        if nbfValid = false ∨ err.isSome then POut.ok (false, err)
        else
          match VerifyExpiration claims vc.expiration vc.expirationLeeway with
          | (expirationValid, err2) =>
            if expirationValid = false ∨ err2.isSome then POut.ok (false, err2)
            else
              -- the source's `validationClaims == nil` early return sits here;
              -- it is unreachable in this branch
              if VerifyIssuer claims vc.issuer = false then POut.ok (false, none)
              else if VerifySubject claims vc.subject = false then POut.ok (false, none)
              else if VerifyAudience claims vc.audience = false then POut.ok (false, none)
              else POut.ok (true, none)

end JWT

namespace JWT

/-! ## JSON codec model (external collaborator `encoding/json`)

The repository delegates JSON work to Go's `encoding/json`.  The model
below covers the subset those calls exercise: parsing of values built
from null / booleans / numbers / strings / arrays / objects (unicode
escapes are not modelled; no input in this development contains them),
and unmarshalling into the `Header` and `Claims` structs, where every
known field is a Go string (a JSON string is required, `null` is a
no-op, a later duplicate key wins, unknown keys are ignored, and a
non-object non-null document is an error). -/

inductive JValue where
  | jnull : JValue
  | jbool : Bool → JValue
  | jnum : List Nat → JValue
  | jstr : List Nat → JValue
  | jarr : List JValue → JValue
  | jobj : List (List Nat × JValue) → JValue

/-- Skip JSON whitespace (space, tab, LF, CR). -/
def jskipWs : List Nat → List Nat
  | [] => []
  | c :: rest => if c = 32 ∨ c = 9 ∨ c = 10 ∨ c = 13 then jskipWs rest else c :: rest

/-- Named escape characters after a backslash. -/
def unescapeChar (c : Nat) : Option Nat :=
  if c = 34 then some 34
  else if c = 92 then some 92
  else if c = 47 then some 47
  else if c = 98 then some 8
  else if c = 102 then some 12
  else if c = 110 then some 10
  else if c = 114 then some 13
  else if c = 116 then some 9
  else none

/-- Parse a string body after the opening quote, up to the closing quote. -/
def parseStringBody : List Nat → Option (List Nat × List Nat)
  | [] => none
  | 34 :: rest => some ([], rest)
  | 92 :: e :: rest =>
      match unescapeChar e, parseStringBody rest with
      | some c, some (s, r) => some (c :: s, r)
      | _, _ => none
  | c :: rest =>
      if c < 32 then none
      else
        match parseStringBody rest with
        | some (s, r) => some (c :: s, r)
        | none => none

def isNumByte (c : Nat) : Bool :=
  isDigit c || c = 45 || c = 43 || c = 46 || c = 101 || c = 69

/-- Lexical number token (kept as raw bytes; the claims never read one). -/
def parseNumberTok (input : List Nat) : Option (JValue × List Nat) :=
  let tok := input.takeWhile isNumByte
  if tok.any isDigit then some (JValue.jnum tok, input.dropWhile isNumByte) else none

mutual

def parseValue : Nat → List Nat → Option (JValue × List Nat)
  | 0, _ => none
  | Nat.succ fuel, input =>
      match jskipWs input with
      | [] => none
      | c :: rest =>
          if c = 110 then
            match rest with
            | 117 :: 108 :: 108 :: r => some (JValue.jnull, r)
            | _ => none
          else if c = 116 then
            match rest with
            | 114 :: 117 :: 101 :: r => some (JValue.jbool true, r)
            | _ => none
          else if c = 102 then
            match rest with
            | 97 :: 108 :: 115 :: 101 :: r => some (JValue.jbool false, r)
            | _ => none
          else if c = 34 then
            match parseStringBody rest with
            | some (s, r) => some (JValue.jstr s, r)
            | none => none
          else if c = 91 then
            match jskipWs rest with
            | 93 :: r2 => some (JValue.jarr [], r2)
            | r2 =>
                match parseElems fuel r2 with
                | some (vs, r3) => some (JValue.jarr vs, r3)
                | none => none
          else if c = 123 then
            match jskipWs rest with
            | 125 :: r2 => some (JValue.jobj [], r2)
            | r2 =>
                match parseMembers fuel r2 with
                | some (ms, r3) => some (JValue.jobj ms, r3)
                | none => none
          else if isDigit c || c = 45 then parseNumberTok (c :: rest)
          else none

def parseElems : Nat → List Nat → Option (List JValue × List Nat)
  | 0, _ => none
  | Nat.succ fuel, input =>
      match parseValue fuel input with
      | none => none
      | some (v, rest) =>
          match jskipWs rest with
          | 44 :: r => -- comma
              (match parseElems fuel r with
               | some (vs, r2) => some (v :: vs, r2)
               | none => none)
          | 93 :: r => some ([v], r) -- closing bracket
          | _ => none

def parseMembers : Nat → List Nat → Option (List (List Nat × JValue) × List Nat)
  | 0, _ => none
  | Nat.succ fuel, input =>
      match jskipWs input with
      | 34 :: r =>
          match parseStringBody r with
          | none => none
          | some (key, r2) =>
              match jskipWs r2 with
              | 58 :: r3 => -- colon
                  (match parseValue fuel r3 with
                   | none => none
                   | some (v, r4) =>
                       match jskipWs r4 with
                       | 44 :: r5 =>
                           (match parseMembers fuel r5 with
                            | some (ms, r6) => some ((key, v) :: ms, r6)
                            | none => none)
                       | 125 :: r5 => some ([(key, v)], r5) -- closing brace
                       | _ => none)
              | _ => none
      | _ => none

end

/-- Parse a complete JSON document: one value, then only whitespace. -/
def parseJSON (bytes : List Nat) : Option JValue :=
  match parseValue (bytes.length + 1) bytes with
  | some (v, rest) => if jskipWs rest = [] then some v else none
  | none => none

/-- Last binding for a key (a later duplicate key wins in Go). -/
def jlookup (fields : List (List Nat × JValue)) (key : List Nat) : Option JValue :=
  match fields.reverse.find? (fun f => f.1 == key) with
  | some f => some f.2
  | none => none

/-- Decode one Go-string struct field from an object: absent or `null`
leaves the zero value, a string sets it, any other type is an error. -/
def jGetStrField (fields : List (List Nat × JValue)) (key : List Nat) : Option (List Nat) :=
  match jlookup fields key with
  | none => some []
  | some (JValue.jstr s) => some s
  | some JValue.jnull => some []
  | some _ => none

/-- `json.Unmarshal` into `Header` (header.go `GetHeader`'s target). -/
def unmarshalHeader (bytes : List Nat) : Option Header :=
  match parseJSON bytes with
  | some (JValue.jobj fields) =>
      match jGetStrField fields (s2b "alg"), jGetStrField fields (s2b "jku"),
          jGetStrField fields (s2b "jwk"), jGetStrField fields (s2b "kid"),
          jGetStrField fields (s2b "typ"), jGetStrField fields (s2b "cty") with
      | some alg, some jku, some jwk, some kid, some typ, some cty =>
          some { algorithm := alg, jwkSetURL := jku, jwk := jwk, keyID := kid,
                 typ := typ, contentType := cty }
      | _, _, _, _, _, _ => none
  | some JValue.jnull => some {}
  | _ => none

/-- `json.Unmarshal` into `Claims` (part_000 `GetClaims`'s target). -/
def unmarshalClaims (bytes : List Nat) : Option Claims :=
  match parseJSON bytes with
  | some (JValue.jobj fields) =>
      match jGetStrField fields (s2b "iss"), jGetStrField fields (s2b "sub"),
          jGetStrField fields (s2b "aud"), jGetStrField fields (s2b "exp"),
          jGetStrField fields (s2b "nbf"), jGetStrField fields (s2b "iat"),
          jGetStrField fields (s2b "jti") with
      | some iss, some sub, some aud, some exp, some nbf, some iat, some jti =>
          some { issuer := iss, subject := sub, audience := aud, expiration := exp,
                 notBefore := nbf, issuedAt := iat, jwtID := jti }
      | _, _, _, _, _, _, _ => none
  | some JValue.jnull => some {}
  | _ => none

/-- Escape a byte for a JSON string literal (quotes and backslashes; the
control and HTML escapes of `encoding/json` are not modelled; no value in
this development contains them). -/
def escapeByte (c : Nat) : List Nat :=
  if c = 34 then [92, 34] else if c = 92 then [92, 92] else [c]

def jsonQuote (s : List Nat) : List Nat :=
  34 :: (s.map escapeByte).flatten ++ [34]

def jsonField (name : String) (value : List Nat) : List Nat :=
  jsonQuote (s2b name) ++ [58] ++ jsonQuote value

def joinComma : List (List Nat) → List Nat
  | [] => []
  | [f] => f
  | f :: rest => f ++ [44] ++ joinComma rest

/-- `json.Marshal` of a `Header`: `alg` always, the rest `omitempty`,
declaration order. -/
def marshalHeader (h : Header) : List Nat :=
  123 :: joinComma
    ([jsonField "alg" h.algorithm]
      ++ (if h.jwkSetURL = [] then [] else [jsonField "jku" h.jwkSetURL])
      ++ (if h.jwk = [] then [] else [jsonField "jwk" h.jwk])
      ++ (if h.keyID = [] then [] else [jsonField "kid" h.keyID])
      ++ (if h.typ = [] then [] else [jsonField "typ" h.typ])
      ++ (if h.contentType = [] then [] else [jsonField "cty" h.contentType]))
    ++ [125]

/-- `json.Marshal` of a `Claims`: all fields `omitempty`, declaration
order. -/
def marshalClaims (c : Claims) : List Nat :=
  123 :: joinComma
    ((if c.issuer = [] then [] else [jsonField "iss" c.issuer])
      ++ (if c.subject = [] then [] else [jsonField "sub" c.subject])
      ++ (if c.audience = [] then [] else [jsonField "aud" c.audience])
      ++ (if c.expiration = [] then [] else [jsonField "exp" c.expiration])
      ++ (if c.notBefore = [] then [] else [jsonField "nbf" c.notBefore])
      ++ (if c.issuedAt = [] then [] else [jsonField "iat" c.issuedAt])
      ++ (if c.jwtID = [] then [] else [jsonField "jti" c.jwtID]))
    ++ [125]

end JWT

namespace JWT

/-! ## Hash dispatch and HMAC engine (token.go `GetHash`, hmac.go)

The cryptographic primitives are external collaborators; they enter as
function parameters (`sha256`, `sha384`, `sha512`, `mac`, `prim`). -/

/-- token.go `appendWithDot` (46 is the dot). -/
def appendWithDot (first second : List Nat) : List Nat := first ++ 46 :: second

/-- token.go `GetHash`: digest dispatch by algorithm. -/
def GetHash (sha256 sha384 sha512 : List Nat → List Nat)
    (algorithm plaintext : List Nat) : Option (List Nat) :=
  if algorithm = RS256 ∨ algorithm = PS256 ∨ algorithm = ES256 then
    some (sha256 plaintext)
  else if algorithm = RS384 ∨ algorithm = PS384 ∨ algorithm = ES384 then
    some (sha384 plaintext)
  else if algorithm = RS512 ∨ algorithm = PS512 ∨ algorithm = ES512 ∨ algorithm = EdDSA then
    some (sha512 plaintext)
  else none

/-- hmac.go `HMACSignerVerifier`. -/
structure HMACSignerVerifier where
  algorithm : List Nat
  key : List Nat

/-- hmac.go `InitHMACSignerVerifier`: nonempty key, algorithm HS*. -/
def InitHMACSignerVerifier (alg key : List Nat) : Option HMACSignerVerifier :=
  if key.length = 0 then none
  else if alg = [] then none
  else if alg ≠ HS256 ∧ alg ≠ HS384 ∧ alg ≠ HS512 then none
  else some { algorithm := alg, key := key }

/-- hmac.go `initHash`; `mac alg key msg` stands for crypto/hmac with the
dispatched SHA. -/
def initHash (mac : List Nat → List Nat → List Nat → List Nat)
    (sv : HMACSignerVerifier) : Option (List Nat → List Nat) :=
  if sv.algorithm = HS256 ∨ sv.algorithm = HS384 ∨ sv.algorithm = HS512 then
    some (mac sv.algorithm sv.key)
  else none

/-- hmac.go `Sign`: rejects an empty payload, then MACs. -/
def hmacSign (mac : List Nat → List Nat → List Nat → List Nat)
    (sv : HMACSignerVerifier) (plaintext : List Nat) : Except String (List Nat) :=
  if plaintext.length = 0 then Except.error "Payload cannot be empty"
  else
    match initHash mac sv with
    | none => Except.error "Cannot HMACSignerVerifier hash with the configured algorithm"
    | some h => Except.ok (h plaintext)

/-- hmac.go `Verify`: rejects empty inputs, recomputes the MAC, compares
(`subtle.ConstantTimeCompare(x, y) == 1` is equality of the byte lists). -/
def hmacVerify (mac : List Nat → List Nat → List Nat → List Nat)
    (sv : HMACSignerVerifier) (plaintext signature : List Nat) : Bool × Option String :=
  if plaintext.length = 0 then (false, some "Plaintext cannot be empty")
  else if signature.length = 0 then (false, some "Signature cannot be empty")
  else
    match hmacSign mac sv plaintext with
    | Except.error e => (false, some e)
    | Except.ok output => (signature == output, none)

/-! ## ECDSA engine (ecdsa.go) -/

/-- ecdsa.go `getExpectedKeyParameters`: (per-coordinate byte width,
curve bit size) for the ES family. -/
def getExpectedKeyParameters (alg : List Nat) : Option (Nat × Nat) :=
  if alg = ES256 then some (32, 256)
  else if alg = ES384 then some (48, 384)
  else if alg = ES512 then some (66, 521)
  else none

/-- ecdsa.go `getSignatureLength`: `keySize / 8`, bumped by one when that
quotient is not a multiple of 8 (the P-521 case: 65 becomes 66). -/
def getSignatureLength (curveBits : Nat) : Nat :=
  let adjustedSize := curveBits / 8
  if adjustedSize % 8 > 0 then adjustedSize + 1 else adjustedSize

/-- `math/big` `Int.Bytes`: minimal big-endian form, empty for zero. -/
def natToBEBytes (n : Nat) : List Nat :=
  if n = 0 then [] else natToBEBytes (n / 256) ++ [n % 256]
decreasing_by exact Nat.div_lt_self (Nat.pos_of_ne_zero (by assumption)) (by omega)

/-- `math/big` `SetBytes`: big-endian interpretation. -/
def beBytesToNat (bs : List Nat) : Nat := bs.foldl (fun acc b => acc * 256 + b) 0

/-- ecdsa.go `padAndJoin`: left-zero-pad each coordinate to `keySize`
bytes and concatenate `r || s`. -/
def padAndJoin (keySize : Nat) (r s : Nat) : List Nat :=
  (List.replicate (keySize - (natToBEBytes r).length) 0 ++ natToBEBytes r)
    ++ (List.replicate (keySize - (natToBEBytes s).length) 0 ++ natToBEBytes s)

/-- ecdsa.go `ECDSASigner` (key material abstracted to its curve size). -/
structure ECDSASigner where
  algorithm : List Nat
  curveBits : Nat

/-- ecdsa.go `ECDSAVerifier`. -/
structure ECDSAVerifier where
  algorithm : List Nat
  curveBits : Nat

/-- ecdsa.go `InitECDSAVerifier`: requires a key (abstracted away), a
nonempty algorithm, and the ES family. -/
def InitECDSAVerifier (alg : List Nat) (curveBits : Nat) : Option ECDSAVerifier :=
  if alg = [] then none
  else if alg ≠ ES256 ∧ alg ≠ ES384 ∧ alg ≠ ES512 then none
  else some { algorithm := alg, curveBits := curveBits }

/-- ecdsa.go `ECDSASigner.Sign`: digest the signing input, call the
ECDSA primitive (whose output pair `(r, s)` is passed in), then encode
`r || s` fixed-width.  A hash-dispatch failure aborts with an error. -/
def ECDSASignerSign (sha256 sha384 sha512 : List Nat → List Nat)
    (sv : ECDSASigner) (plaintext : List Nat) (r s : Nat) : Except String (List Nat) :=
  match GetHash sha256 sha384 sha512 sv.algorithm plaintext with
  | none => Except.error "Cannot generate hash with the configured algorithm"
  | some _ => Except.ok (padAndJoin (getSignatureLength sv.curveBits) r s)

/-- ecdsa.go `ECDSAVerifier.Verify`: digest, enforce that the signature
length is exactly twice the per-coordinate width, split in half,
interpret the halves big-endian, and call the verification primitive
`prim hash r s`. -/
def ECDSAVerifierVerify (sha256 sha384 sha512 : List Nat → List Nat)
    (prim : List Nat → Nat → Nat → Bool) (sv : ECDSAVerifier)
    (plaintext signature : List Nat) : Bool × Option String :=
  match GetHash sha256 sha384 sha512 sv.algorithm plaintext with
  | none => (false, some "Cannot generate hash with the configured algorithm")
  | some hash =>
      if signature.length ≠ getSignatureLength sv.curveBits * 2 then
        (false, some "Signature length invalid")
      else
        (prim hash (beBytesToNat (signature.take (getSignatureLength sv.curveBits)))
          (beBytesToNat (signature.drop (getSignatureLength sv.curveBits))), none)

/-! ## Orchestrator (part_002) -/

/-- part_002 `JOSESignerVerifier`: a facade over optional `TokenSigner`
and `TokenVerifier` interface values (`none` is a nil interface). -/
structure JOSESignerVerifier where
  algorithm : List Nat
  signer : Option (List Nat → Except String (List Nat)) := none
  verifier : Option (List Nat → List Nat → Bool × Option String) := none

/-- part_002 `NewInsecureJOSESignerVerifier`: accepts only `None` and
populates neither capability. -/
def NewInsecureJOSESignerVerifier (alg : List Nat) : Option JOSESignerVerifier :=
  if alg ≠ None then none
  else some { algorithm := alg }

/-- part_002 `newFromHMACBytes`: the symmetric engine serves both
capabilities. -/
def newFromHMACBytes (mac : List Nat → List Nat → List Nat → List Nat)
    (alg key : List Nat) : Option JOSESignerVerifier :=
  match InitHMACSignerVerifier alg key with
  | none => none
  | some sv =>
      some { algorithm := alg, signer := some (hmacSign mac sv),
             verifier := some (hmacVerify mac sv) }

/-- rsa.go `getHashAlgorithm`: digest size for the RS/PS family. -/
def getHashAlgorithm (alg : List Nat) : Option Nat :=
  if alg = RS256 ∨ alg = PS256 then some 256
  else if alg = RS384 ∨ alg = PS384 then some 384
  else if alg = RS512 ∨ alg = PS512 then some 512
  else none

/-- part_002 `newFromRSAPublic` over rsa.go `InitRSAVerifier`: a nonempty
RS/PS algorithm yields a facade with only the verifier populated (the
RSA primitive enters as `rsaVerify`). -/
def newFromRSAPublic (rsaVerify : List Nat → List Nat → Bool × Option String)
    (alg : List Nat) : Option JOSESignerVerifier :=
  if alg = [] then none
  else
    match getHashAlgorithm alg with
    | none => none
    | some _ => some { algorithm := alg, verifier := some rsaVerify }

/-- strings.Split on the dot: n dots yield n+1 parts. -/
def splitOnDot : List Nat → List (List Nat)
  | [] => [[]]
  | c :: rest =>
      if c = 46 then [] :: splitOnDot rest
      else
        match splitOnDot rest with
        | p :: ps => (c :: p) :: ps
        | [] => [[c]]

/-- part_002 `GetRawTokenParts`.  The source guard is the unsatisfiable
`len(parts) < 2 && len(parts) > 3`; `parts[1]` on a one-part split is a
Go index-out-of-range panic. -/
def GetRawTokenParts (rawToken : List Nat) : GoRes Token :=
  let parts := splitOnDot rawToken
  if parts.length < 2 ∧ 3 < parts.length then
    GoRes.err "Valid tokens MUST have at least one dot and at most two dots"
  else
    match Base64URLDecode (parts.getD 0 []) with
    | none => GoRes.err "Illegal base64url string"
    | some decodedHeader =>
        match parts[1]? with
        | none => GoRes.panic
        | some p1 =>
            match Base64URLDecode p1 with
            | none => GoRes.err "Illegal base64url string"
            | some decodedBody =>
                let token : Token :=
                  { rawToken := rawToken, rawHeader := parts.getD 0 [],
                    decodedHeader := decodedHeader, rawBody := p1,
                    decodedBody := decodedBody }
                if parts.length = 3 then
                  match Base64URLDecode (parts.getD 2 []) with
                  | none => GoRes.err "Illegal base64url string"
                  | some decodedSignature =>
                      GoRes.ok
                        { token with
                          rawSignature := parts.getD 2 []
                          decodedSignature := decodedSignature }
                else GoRes.ok token

/-- header.go `GetHeader`: unmarshal the DECODED header bytes. -/
def GetHeader (token : Token) : Option Header := unmarshalHeader token.decodedHeader

/-- part_000 `GetClaims`: unmarshals `token.RawBody` — the still
base64url-encoded body segment, not `DecodedBody`. -/
def GetClaims (token : Token) : Option Claims := unmarshalClaims token.rawBody

/-- part_002 `GenerateToken`: guard on a nil VERIFIER, build the signing
input, short-circuit for `None` (returning the signing input with no
trailing dot), else call the signer (a nil signer is a Go panic). -/
def GenerateToken (sv : JOSESignerVerifier) (headerJSON bodyJSON : List Nat) :
    GoRes (List Nat) :=
  match sv.verifier with
  | none =>
      GoRes.err "JOSESignerVerifier not configured for signing - did you provide the correct key type?"
  | some _ =>
      let headerAndClaims := appendWithDot (Base64URLEncode headerJSON) (Base64URLEncode bodyJSON)
      if sv.algorithm = None then GoRes.ok headerAndClaims
      else
        match sv.signer with
        | none => GoRes.panic
        | some signFn =>
            match signFn headerAndClaims with
            | Except.error e => GoRes.err e
            | Except.ok jwSignature =>
                GoRes.ok (appendWithDot headerAndClaims (Base64URLEncode jwSignature))

/-- part_002 `VerifySignature`: split/decode, bind the header, verify the
signature over `rawHeader.rawBody`, and return `(token, bool, err)`. -/
def VerifySignature (sv : JOSESignerVerifier) (rawToken : List Nat) :
    POut (Option Token × Bool × Option String) :=
  match GetRawTokenParts rawToken with
  | GoRes.panic => POut.panic
  | GoRes.err e => POut.ok (none, false, some e)
  | GoRes.ok token =>
      match GetHeader token with
      | none => POut.ok (none, false, some "json unmarshal error")
      | some header =>
          match sv.verifier with
          | none => POut.panic
          | some verifyFn =>
              match verifyFn (appendWithDot token.rawHeader token.rawBody)
                  token.decodedSignature with
              | (signatureValid, err) =>
                  POut.ok
                    (some
                      { token with
                        registeredHeader := header
                        signatureValid := signatureValid },
                     signatureValid, err)

/-- part_002 `VerifyToken`: on a signature error or `false` it returns
`(nil, false, err)`; otherwise it binds the claims (via `GetClaims`) and
runs the validator. -/
def VerifyToken (sv : JOSESignerVerifier) (rawToken : List Nat)
    (validationCriteria : Option ValidationClaims) :
    POut (Option Token × Bool × Option String) :=
  match VerifySignature sv rawToken with
  | POut.panic => POut.panic
  | POut.ok (tokenOpt, signatureValid, err) =>
      if err.isSome ∨ signatureValid = false then POut.ok (none, false, err)
      else
        match tokenOpt with
        | none => POut.panic
        | some token =>
            match GetClaims token with
            | none => POut.ok (some token, false, some "json unmarshal error")
            | some claims =>
                let token2 := { token with registeredClaims := claims }
                match ValidateRegisteredClaims claims validationCriteria with
                | POut.panic => POut.panic
                | POut.ok (claimsValid, err2) =>
                    POut.ok (some token2, signatureValid && claimsValid, err2)

end JWT

namespace JWT

/-! ## Supporting lemmas for the ECDSA encoding -/

theorem beBytesToNat_append_digit (xs : List Nat) (b : Nat) :
    beBytesToNat (xs ++ [b]) = beBytesToNat xs * 256 + b := by
  unfold beBytesToNat
  rw [List.foldl_append]
  rfl

theorem beBytesToNat_natToBEBytes : ∀ n, beBytesToNat (natToBEBytes n) = n := by
  intro n
  induction n using Nat.strong_induction_on with
  | _ n ih =>
    rw [natToBEBytes]
    by_cases h : n = 0
    · subst h
      simp [beBytesToNat]
    · rw [if_neg h]
      rw [beBytesToNat_append_digit]
      rw [ih (n / 256) (Nat.div_lt_self (Nat.pos_of_ne_zero h) (by omega))]
      omega

theorem natToBEBytes_length_le : ∀ (k n : Nat), n < 2 ^ (8 * k) → (natToBEBytes n).length ≤ k := by
  intro k
  induction k with
  | zero =>
      intro n h
      simp only [Nat.mul_zero, pow_zero] at h
      have : n = 0 := by omega
      subst this
      rw [natToBEBytes]
      simp
  | succ k ih =>
      intro n h
      rw [natToBEBytes]
      by_cases h0 : n = 0
      · simp [h0]
      · rw [if_neg h0]
        have hP : 2 ^ (8 * (k + 1)) = 2 ^ (8 * k) * 256 := by
          rw [Nat.mul_succ, pow_add]
          norm_num
        rw [hP] at h
        have hdiv : n / 256 < 2 ^ (8 * k) := by omega
        have := ih (n / 256) hdiv
        simp only [List.length_append, List.length_cons, List.length_nil]
        omega

theorem beBytesToNat_zero_prefix (k : Nat) (bs : List Nat) :
    beBytesToNat (List.replicate k 0 ++ bs) = beBytesToNat bs := by
  unfold beBytesToNat
  rw [List.foldl_append]
  congr 1
  induction k with
  | zero => rfl
  | succ k ih => simpa [List.replicate] using ih

theorem padAndJoin_split (k r s : Nat)
    (hr : (natToBEBytes r).length ≤ k) (hs : (natToBEBytes s).length ≤ k) :
    (padAndJoin k r s).length = 2 * k ∧
    beBytesToNat ((padAndJoin k r s).take k) = r ∧
    beBytesToNat ((padAndJoin k r s).drop k) = s := by
  unfold padAndJoin
  set A := List.replicate (k - (natToBEBytes r).length) 0 ++ natToBEBytes r with hAdef
  set B := List.replicate (k - (natToBEBytes s).length) 0 ++ natToBEBytes s with hBdef
  have hA : A.length = k := by
    rw [hAdef]
    simp only [List.length_append, List.length_replicate]
    omega
  have hB : B.length = k := by
    rw [hBdef]
    simp only [List.length_append, List.length_replicate]
    omega
  refine ⟨by simp only [List.length_append, hA, hB]; omega, ?_, ?_⟩
  · rw [← hA, List.take_left, hAdef, beBytesToNat_zero_prefix, beBytesToNat_natToBEBytes]
  · rw [← hA, List.drop_left, hBdef, beBytesToNat_zero_prefix, beBytesToNat_natToBEBytes]

/-! ## Concrete fixtures used by the claim theorems -/

/-- A stand-in HMAC primitive (the orchestration under test is
parametric in the MAC, exactly as the Go code is parametric in its
`TokenSigner` / `TokenVerifier` interfaces). -/
def exampleMac (alg key msg : List Nat) : List Nat :=
  [7, (msg.length + key.length + alg.length) % 256]

/-- A stand-in digest primitive. -/
def shaStub (msg : List Nat) : List Nat := [1, msg.length % 256]

/-- A stand-in RSA verification primitive. -/
def rsaVerifyStub (plaintext signature : List Nat) : Bool × Option String := (false, none)

def primTrue (hash : List Nat) (r s : Nat) : Bool := true

def primFalse (hash : List Nat) (r s : Nat) : Bool := false

def exampleHeader : Header := { algorithm := s2b "HS256" }

def exampleClaims : Claims := { issuer := s2b "joe" }

/-- The HS256 facade built by `NewJOSESignerVerifier(HS256, key)`. -/
def hmacFacadeEx : JOSESignerVerifier :=
  (newFromHMACBytes exampleMac HS256 (s2b "secret")).getD { algorithm := [] }

/-- The verify-only facade built from an RSA public key. -/
def rsaPubFacadeEx : JOSESignerVerifier :=
  (newFromRSAPublic rsaVerifyStub RS256).getD { algorithm := [] }

/-- The facade built by `NewInsecureJOSESignerVerifier(None)`. -/
def insecureFacadeEx : JOSESignerVerifier :=
  (NewInsecureJOSESignerVerifier None).getD { algorithm := [] }

/-- The token `GenerateToken` emits for `exampleHeader` / `exampleClaims`
under `hmacFacadeEx`. -/
def c1Raw : List Nat := s2b "eyJhbGciOiJIUzI1NiJ9.eyJpc3MiOiJqb2UifQ.BzI"

/-- The same header and body segments with a wrong signature segment. -/
def c2Raw : List Nat :=
  appendWithDot
    (appendWithDot (Base64URLEncode (marshalHeader exampleHeader))
      (Base64URLEncode (marshalClaims exampleClaims)))
    (Base64URLEncode [9, 9])

/-- Observable shape of a `(token, bool, err)` triple: token present?,
boolean, error present?. -/
def vtProj : POut (Option Token × Bool × Option String) → Option (Bool × Bool × Bool)
  | POut.ok (t, b, e) => some (t.isSome, b, e.isSome)
  | POut.panic => none

/-- The token value carried by a `VerifySignature` result. -/
def vsTokenOf : POut (Option Token × Bool × Option String) → Option Token
  | POut.ok (t, _, _) => t
  | POut.panic => none

/-- `true` iff a `GetRawTokenParts` result is a token (no error, no panic). -/
def goResIsOk : GoRes Token → Bool
  | GoRes.ok _ => true
  | _ => false

end JWT

namespace JWT

/-! ## Claim theorems -/

/-- C10: for every byte array `b`, `Base64URLDecode (Base64URLEncode b)`
succeeds and returns `b`, and the encoded string contains no `'='`
padding and no `'+'` or `'/'` (only their url replacements can occur). -/
theorem c10_base64url_roundtrip (b : List Nat) (hb : ∀ x ∈ b, x < 256) :
    Base64URLDecode (Base64URLEncode b) = some b ∧
    (Base64URLEncode b).all (fun c => (c != 61) && (c != 43) && (c != 47)) = true := by
  refine ⟨base64url_decode_encode b hb, ?_⟩
  rw [List.all_eq_true]
  intro c hc
  have h := base64url_encode_alphabet b hb c hc
  simp only [Bool.and_eq_true, bne_iff_ne, ne_eq]
  exact ⟨⟨h.1, h.2.1⟩, h.2.2⟩

/-- C10 witness: the round trip and alphabet checks at a concrete byte
array exercising padding (length 4) and high bytes. -/
theorem c10_witness :
    Base64URLDecode (Base64URLEncode [0, 1, 254, 255]) = some [0, 1, 254, 255] ∧
    (Base64URLEncode [0, 1, 254, 255]).all
      (fun c => (c != 61) && (c != 43) && (c != 47)) = true :=
  c10_base64url_roundtrip [0, 1, 254, 255] (by decide)

/-- C3: the claim says `GetRawTokenParts` rejects every part count other
than 2 or 3 with a format error and never panics.  In the code the guard
`len(parts) < 2 && len(parts) > 3` is unsatisfiable, so: a zero-dot
input (1 part) reaches `parts[1]` and panics with an index out of range,
and a three-dot input (4 parts) is accepted with no error. -/
theorem c3_split_guard_unsatisfiable :
    (splitOnDot (s2b "AAAA")).length = 1 ∧
    GetRawTokenParts (s2b "AAAA") = GoRes.panic ∧
    (splitOnDot (s2b "AA.AA.AA.AA")).length = 4 ∧
    goResIsOk (GetRawTokenParts (s2b "AA.AA.AA.AA")) = true := by decide

/-- C5: the claim says `ValidateRegisteredClaims` with a nil validation
parameters object still runs the nbf/exp checks and returns `false` for
a past `exp`.  In the code the first statement dereferences the nil
pointer (`validationClaims.NotBefore`), so the call panics before the
nil guard is reached; moreover no wall-clock default exists anywhere in
the validator, so even a non-nil zero-valued parameters object accepts a
long-past `exp`. -/
theorem c5_nil_params_panics :
    ValidateRegisteredClaims { expiration := s2b "1" } none = POut.panic ∧
    parseInt64 (s2b "1") = some 1 ∧
    ValidateRegisteredClaims { expiration := s2b "1" } (some {}) = POut.ok (true, none) := by
  decide

/-- C4: the claim says `GenerateToken` on the `None` facade succeeds and
emits the two-dot form.  The code guards on `sv.verifier == nil`, and
`NewInsecureJOSESignerVerifier` leaves the verifier nil, so every
`GenerateToken` call on that facade returns the misconfiguration error;
the `None` short-circuit (which, in addition, would return the signing
input with ONE dot and no trailing dot) is dead code on this facade. -/
theorem c4_none_facade_generate_errors :
    (NewInsecureJOSESignerVerifier None).isSome = true ∧
    GenerateToken insecureFacadeEx (s2b "\x7b\"alg\":\"none\"\x7d") (s2b "\x7b\x7d")
      = GoRes.err "JOSESignerVerifier not configured for signing - did you provide the correct key type?" := by
  decide

/-- C1: the claim says sign-then-verify round-trips: `GenerateToken`
followed by `VerifyToken` succeeds and the parsed claims equal the
signed ones.  In the code `GetClaims` unmarshals `token.RawBody` — the
still base64url-encoded segment — instead of `DecodedBody`, so for the
generated HS256 token the signature verifies but the claims parse fails
and `VerifyToken` returns `(token, false, json error)`. -/
theorem c1_generate_verify_roundtrip_breaks :
    GenerateToken hmacFacadeEx (marshalHeader exampleHeader) (marshalClaims exampleClaims)
      = GoRes.ok c1Raw ∧
    vtProj (VerifySignature hmacFacadeEx c1Raw) = some (true, true, false) ∧
    vtProj (VerifyToken hmacFacadeEx c1Raw (some {})) = some (true, false, true) ∧
    unmarshalClaims (Base64URLEncode (marshalClaims exampleClaims)) = none ∧
    unmarshalClaims (marshalClaims exampleClaims) = some exampleClaims := by
  decide

end JWT

namespace JWT

/-- C2 counterexample: `c2Raw` is a well-formed token whose signature
check returns `(false, nil)`; `VerifySignature` carries the partially
populated token, but `VerifyToken` returns a NIL token — not
`token_so_far` as the claim states. -/
theorem c2_counterexample :
    vtProj (VerifySignature hmacFacadeEx c2Raw) = some (true, false, false) ∧
    VerifyToken hmacFacadeEx c2Raw (some {}) = POut.ok (none, false, none) := by
  decide

/-- C2 (amended): on a signature-check result that is `false` or carries
an error, `VerifyToken` returns `(nil, false, error-or-nil)` — the nil
token in place of the claim's `token_so_far`; it never reaches the
claims-binding or validation steps, so `claims_valid` stays at its
default `false` and the only error that can surface is the one from
`VerifySignature` (never a claim parse error). -/
theorem c2_sig_failure_returns_nil_token (sv : JOSESignerVerifier) (raw : List Nat)
    (crit : Option ValidationClaims) (t0 : Option Token) (b : Bool) (e : Option String)
    (hvs : VerifySignature sv raw = POut.ok (t0, b, e))
    (hfail : b = false ∨ e.isSome = true) :
    VerifyToken sv raw crit = POut.ok (none, false, e) := by
  unfold VerifyToken
  rw [hvs]
  rcases hfail with h | h
  · subst h
    simp
  · simp [h]

/-- C2 witness: the amended statement evaluated at the concrete bad
signature `c2Raw`. -/
theorem c2_witness :
    VerifyToken hmacFacadeEx c2Raw (some {}) = POut.ok (none, false, none) :=
  c2_sig_failure_returns_nil_token hmacFacadeEx c2Raw (some {})
    (vsTokenOf (VerifySignature hmacFacadeEx c2Raw)) false none (by decide) (Or.inl rfl)

/-- C6: `GenerateToken`'s guard tests only the verifier.  Any facade
`newFromRSAPublic` builds (verifier populated, signer absent, RS/PS
algorithm — never `None`) passes the guard, and the sign step then
dereferences the nil signer interface: a Go panic, so the operation is
not total on the verify-only facade. -/
theorem c6_verify_only_facade_generate_panics
    (rsaVerify : List Nat → List Nat → Bool × Option String) (alg : List Nat)
    (sv : JOSESignerVerifier) (headerJSON bodyJSON : List Nat)
    (hsv : newFromRSAPublic rsaVerify alg = some sv) :
    sv.signer.isNone = true ∧ sv.verifier.isSome = true ∧
    GenerateToken sv headerJSON bodyJSON = GoRes.panic := by
  unfold newFromRSAPublic at hsv
  by_cases h1 : alg = []
  · rw [if_pos h1] at hsv
    exact absurd hsv (by simp)
  · rw [if_neg h1] at hsv
    cases hgh : getHashAlgorithm alg with
    | none =>
        rw [hgh] at hsv
        exact absurd hsv (by simp)
    | some d =>
        rw [hgh] at hsv
        have hsv2 : sv = { algorithm := alg, signer := none, verifier := some rsaVerify } := by
          injection hsv with h
          exact h.symm
        subst hsv2
        have halg : alg ≠ None := by
          unfold getHashAlgorithm at hgh
          by_cases h2 : alg = RS256 ∨ alg = PS256
          · rcases h2 with h | h <;> (subst h; decide)
          · rw [if_neg h2] at hgh
            by_cases h3 : alg = RS384 ∨ alg = PS384
            · rcases h3 with h | h <;> (subst h; decide)
            · rw [if_neg h3] at hgh
              by_cases h4 : alg = RS512 ∨ alg = PS512
              · rcases h4 with h | h <;> (subst h; decide)
              · rw [if_neg h4] at hgh
                cases hgh
        refine ⟨rfl, rfl, ?_⟩
        unfold GenerateToken
        simp [halg]

/-- C6 witness: the RS256 public-key facade panics on `GenerateToken`. -/
theorem c6_witness :
    GenerateToken rsaPubFacadeEx (s2b "header") (s2b "body") = GoRes.panic :=
  (c6_verify_only_facade_generate_panics rsaVerifyStub RS256 rsaPubFacadeEx
    (s2b "header") (s2b "body") rfl).2.2

/-- C7: the expiration rule.  With no `exp` the check passes; with a
parsable `exp` the claim is valid exactly when
`reference_time - exp_leeway < exp_instant` (the model carries times as
whole seconds, matching `time.Unix(sec, 0)`); a parse failure returns
`(false, error)`. -/
theorem c7_expiration_rule (claims : Claims) (t l : Int) :
    (claims.expiration = [] → VerifyExpiration claims t l = (true, none)) ∧
    (∀ n, parseInt64 claims.expiration = some n →
        VerifyExpiration claims t l = (decide (t - l < n), none)) ∧
    (claims.expiration ≠ [] → parseInt64 claims.expiration = none →
        VerifyExpiration claims t l = (false, some "exp parse error")) := by
  unfold VerifyExpiration
  by_cases he : claims.expiration = []
  · refine ⟨fun _ => by rw [if_pos he], ?_, fun hne _ => absurd he hne⟩
    intro n hn
    rw [he] at hn
    simp [parseInt64] at hn
  · rw [if_neg he]
    refine ⟨fun h => absurd h he, ?_, ?_⟩
    · intro n hn
      rw [hn]
    · intro _ hn
      rw [hn]

/-- C7 witness: `exp = "100"` one second before reference time 101 with
zero leeway is expired. -/
theorem c7_witness :
    VerifyExpiration { expiration := s2b "100" } 101 0 = (false, none) :=
  (c7_expiration_rule { expiration := s2b "100" } 101 0).2.1 100 (by decide)

/-- C8: every successful ECDSA sign emits `r || s` with each coordinate
a fixed-width big-endian string of `getSignatureLength` bytes, which for
the three reachable curves equals `ceil(curve_bits / 8)`: 32 (P-256),
48 (P-384), 66 (P-521); short values are left-zero-padded, the total
length is `2 × width` (132 bytes for ES512), and reading the halves back
big-endian recovers `r` and `s`. -/
theorem c8_ecdsa_sign_fixed_width (alg : List Nat) (sz bits : Nat) (r s : Nat)
    (sha256 sha384 sha512 : List Nat → List Nat) (plaintext : List Nat)
    (halg : getExpectedKeyParameters alg = some (sz, bits))
    (hr : r < 2 ^ (8 * getSignatureLength bits))
    (hs : s < 2 ^ (8 * getSignatureLength bits)) :
    getSignatureLength bits = sz ∧
    getSignatureLength bits = (bits + 7) / 8 ∧
    ECDSASignerSign sha256 sha384 sha512 { algorithm := alg, curveBits := bits } plaintext r s
      = Except.ok (padAndJoin (getSignatureLength bits) r s) ∧
    (padAndJoin (getSignatureLength bits) r s).length = 2 * getSignatureLength bits ∧
    beBytesToNat ((padAndJoin (getSignatureLength bits) r s).take (getSignatureLength bits)) = r ∧
    beBytesToNat ((padAndJoin (getSignatureLength bits) r s).drop (getSignatureLength bits)) = s := by
  have hrlen := natToBEBytes_length_le (getSignatureLength bits) r hr
  have hslen := natToBEBytes_length_le (getSignatureLength bits) s hs
  have hsplit := padAndJoin_split (getSignatureLength bits) r s hrlen hslen
  unfold getExpectedKeyParameters at halg
  by_cases h1 : alg = ES256
  · rw [if_pos h1] at halg
    simp only [Option.some.injEq, Prod.mk.injEq] at halg
    obtain ⟨rfl, rfl⟩ := halg
    subst h1
    exact ⟨by decide, by decide, rfl, hsplit.1, hsplit.2.1, hsplit.2.2⟩
  · rw [if_neg h1] at halg
    by_cases h2 : alg = ES384
    · rw [if_pos h2] at halg
      simp only [Option.some.injEq, Prod.mk.injEq] at halg
      obtain ⟨rfl, rfl⟩ := halg
      subst h2
      exact ⟨by decide, by decide, rfl, hsplit.1, hsplit.2.1, hsplit.2.2⟩
    · rw [if_neg h2] at halg
      by_cases h3 : alg = ES512
      · rw [if_pos h3] at halg
        simp only [Option.some.injEq, Prod.mk.injEq] at halg
        obtain ⟨rfl, rfl⟩ := halg
        subst h3
        exact ⟨by decide, by decide, rfl, hsplit.1, hsplit.2.1, hsplit.2.2⟩
      · rw [if_neg h3] at halg
        cases halg

/-- C8 witness: ES512 with the degenerate pair `(0, 0)` still emits
exactly `2 × 66 = 132` bytes. -/
theorem c8_witness :
    getSignatureLength 521 = 66 ∧
    getSignatureLength 521 = (521 + 7) / 8 ∧
    ECDSASignerSign shaStub shaStub shaStub { algorithm := ES512, curveBits := 521 }
        (s2b "msg") 0 0
      = Except.ok (padAndJoin (getSignatureLength 521) 0 0) ∧
    (padAndJoin (getSignatureLength 521) 0 0).length = 2 * getSignatureLength 521 ∧
    beBytesToNat ((padAndJoin (getSignatureLength 521) 0 0).take (getSignatureLength 521)) = 0 ∧
    beBytesToNat ((padAndJoin (getSignatureLength 521) 0 0).drop (getSignatureLength 521)) = 0 :=
  c8_ecdsa_sign_fixed_width ES512 66 521 0 0 shaStub shaStub shaStub (s2b "msg") rfl
    (pow_pos (by norm_num) _) (pow_pos (by norm_num) _)

/-- The verifier's branch structure, once the hash dispatch succeeds. -/
theorem ecdsaVerify_eq (sha256 sha384 sha512 : List Nat → List Nat)
    (prim : List Nat → Nat → Nat → Bool) (sv : ECDSAVerifier)
    (plaintext signature : List Nat) (hv : List Nat)
    (hg : GetHash sha256 sha384 sha512 sv.algorithm plaintext = some hv) :
    ECDSAVerifierVerify sha256 sha384 sha512 prim sv plaintext signature =
      if signature.length ≠ getSignatureLength sv.curveBits * 2 then
        (false, some "Signature length invalid")
      else
        (prim hv (beBytesToNat (signature.take (getSignatureLength sv.curveBits)))
          (beBytesToNat (signature.drop (getSignatureLength sv.curveBits))), none) := by
  unfold ECDSAVerifierVerify
  rw [hg]

/-- C9: for an ES-family verifier, a signature whose length differs from
`2 × width` yields `(false, length error)` and the result does not
depend on the verification primitive at all (it is never invoked); at
exactly `2 × width` the verifier returns the primitive applied to the
digest and the two big-endian halves, with no error. -/
theorem c9_ecdsa_verify_length_gate
    (sha256 sha384 sha512 : List Nat → List Nat)
    (prim prim2 : List Nat → Nat → Nat → Bool)
    (curveBits : Nat) (alg plaintext signature : List Nat)
    (halg : alg = ES256 ∨ alg = ES384 ∨ alg = ES512) :
    (signature.length ≠ getSignatureLength curveBits * 2 →
      ECDSAVerifierVerify sha256 sha384 sha512 prim
          { algorithm := alg, curveBits := curveBits } plaintext signature
        = (false, some "Signature length invalid") ∧
      ECDSAVerifierVerify sha256 sha384 sha512 prim
          { algorithm := alg, curveBits := curveBits } plaintext signature
        = ECDSAVerifierVerify sha256 sha384 sha512 prim2
          { algorithm := alg, curveBits := curveBits } plaintext signature) ∧
    (signature.length = getSignatureLength curveBits * 2 →
      ∃ hv, GetHash sha256 sha384 sha512 alg plaintext = some hv ∧
        ECDSAVerifierVerify sha256 sha384 sha512 prim
            { algorithm := alg, curveBits := curveBits } plaintext signature
          = (prim hv (beBytesToNat (signature.take (getSignatureLength curveBits)))
              (beBytesToNat (signature.drop (getSignatureLength curveBits))), none)) := by
  have hex : ∃ hv, GetHash sha256 sha384 sha512 alg plaintext = some hv := by
    rcases halg with h | h | h <;> (subst h; exact ⟨_, rfl⟩)
  obtain ⟨hv, hg⟩ := hex
  have he := ecdsaVerify_eq sha256 sha384 sha512 prim
    { algorithm := alg, curveBits := curveBits } plaintext signature hv hg
  have he2 := ecdsaVerify_eq sha256 sha384 sha512 prim2
    { algorithm := alg, curveBits := curveBits } plaintext signature hv hg
  constructor
  · intro hlen
    constructor
    · rw [he, if_pos hlen]
    · rw [he, he2, if_pos hlen, if_pos hlen]
  · intro hlen
    refine ⟨hv, hg, ?_⟩
    rw [he, if_neg (fun hne => hne hlen)]

/-- C9 witness: with an ES256 verifier and a 3-byte signature the result
is the length error, identically for two different primitives. -/
theorem c9_witness :
    ECDSAVerifierVerify shaStub shaStub shaStub primTrue
        { algorithm := ES256, curveBits := 256 } (s2b "msg") [0, 0, 0]
      = (false, some "Signature length invalid") ∧
    ECDSAVerifierVerify shaStub shaStub shaStub primTrue
        { algorithm := ES256, curveBits := 256 } (s2b "msg") [0, 0, 0]
      = ECDSAVerifierVerify shaStub shaStub shaStub primFalse
        { algorithm := ES256, curveBits := 256 } (s2b "msg") [0, 0, 0] :=
  (c9_ecdsa_verify_length_gate shaStub shaStub shaStub primTrue primFalse 256 ES256
    (s2b "msg") [0, 0, 0] (Or.inl rfl)).1 (by decide)

end JWT
